import Mathlib

/-!
Verification of the multi-granularity demand-forecasting pipeline
(`ml/utils/granularity.py`, `ml/utils/data.py`, `ml/utils/features.py`,
`ml/utils/metrics.py`).

Timestamps are modelled as calendar date-times (year/month/day/hour), with
the standard civil-calendar conversions used to mirror pandas timestamp
arithmetic.  Demand values are rationals for the data pipeline and reals
for the metrics engine (whose `rmse` needs a square root).  Missing values
(pandas `NaN`) are modelled as `Option` with `none` standing for `NaN`.
-/

/-- A calendar timestamp at hour resolution, mirroring `pandas.Timestamp`
restricted to the hourly data this pipeline handles. -/
structure DateTime where
  year : Int
  month : Int
  day : Int
  hour : Int
  deriving DecidableEq, Repr

/-- Leap-year rule of the proleptic Gregorian calendar. -/
def isLeapYear (y : Int) : Bool :=
  (y % 4 == 0 && y % 100 != 0) || y % 400 == 0

/-- Number of days in a calendar month. -/
def daysInMonth (y m : Int) : Int :=
  if m = 2 then (if isLeapYear y then 29 else 28)
  else if m = 4 ∨ m = 6 ∨ m = 9 ∨ m = 11 then 30
  else 31

/-- Days since 1970-01-01 of a civil date (Howard Hinnant's
`days_from_civil` algorithm, the one underlying timestamp libraries). -/
def daysFromCivil (y m d : Int) : Int :=
  let y' := if m ≤ 2 then y - 1 else y
  let era := Int.fdiv y' 400
  let yoe := y' - era * 400
  let mp := if m > 2 then m - 3 else m + 9
  let doy := Int.fdiv (153 * mp + 2) 5 + d - 1
  let doe := yoe * 365 + Int.fdiv yoe 4 - Int.fdiv yoe 100 + doy
  era * 146097 + doe - 719468

/-- Civil date (year, month, day) of a days-since-1970 count (Hinnant's
`civil_from_days`, inverse of `daysFromCivil`). -/
def civilFromDays (z : Int) : Int × Int × Int :=
  let z' := z + 719468
  let era := Int.fdiv z' 146097
  let doe := z' - era * 146097
  let yoe := Int.fdiv (doe - Int.fdiv doe 1460 + Int.fdiv doe 36524 - Int.fdiv doe 146096) 365
  let y := yoe + era * 400
  let doy := doe - (365 * yoe + Int.fdiv yoe 4 - Int.fdiv yoe 100)
  let mp := Int.fdiv (5 * doy + 2) 153
  let d := doy - Int.fdiv (153 * mp + 2) 5 + 1
  let m := if mp < 10 then mp + 3 else mp - 9
  (if m ≤ 2 then y + 1 else y, m, d)

/-- Linear key of a timestamp: hours since 1970-01-01 00:00.  Pandas
timestamps compare by exactly this linearisation. -/
def DateTime.toKey (t : DateTime) : Int :=
  daysFromCivil t.year t.month t.day * 24 + t.hour

/-- Timestamp of an hours-since-epoch key. -/
def DateTime.ofKey (k : Int) : DateTime :=
  let d := Int.fdiv k 24
  let h := k - d * 24
  let c := civilFromDays d
  ⟨c.1, c.2.1, c.2.2, h⟩

/-- Default timestamp used only to totalise list lookups. -/
def dtEpoch : DateTime := ⟨1970, 1, 1, 0⟩

/-- Day-of-week with Monday = 0 (pandas `dayofweek`).  1970-01-01 was a
Thursday. -/
def DateTime.dow (t : DateTime) : Int :=
  Int.emod (daysFromCivil t.year t.month t.day + 3) 7

/-- Day of year, 1-based (pandas `dayofyear`). -/
def DateTime.dayOfYear (t : DateTime) : Int :=
  daysFromCivil t.year t.month t.day - daysFromCivil t.year 1 1 + 1

/-- Calendar quarter (pandas `quarter`). -/
def DateTime.quarter (t : DateTime) : Int :=
  Int.fdiv (t.month - 1) 3 + 1

/-- Helper of the ISO week-count rule: `(y + y/4 - y/100 + y/400) mod 7`. -/
def isoP (y : Int) : Int :=
  Int.emod (y + Int.fdiv y 4 - Int.fdiv y 100 + Int.fdiv y 400) 7

/-- Number of ISO weeks in a year (52 or 53). -/
def isoWeeksInYear (y : Int) : Int :=
  if isoP y = 4 ∨ isoP (y - 1) = 3 then 53 else 52

/-- ISO-8601 week of year (pandas `isocalendar().week`). -/
def DateTime.isoWeek (t : DateTime) : Int :=
  let w := t.dow + 1
  let week0 := Int.fdiv (t.dayOfYear - w + 10) 7
  if week0 < 1 then isoWeeksInYear (t.year - 1)
  else if week0 > isoWeeksInYear t.year then 1
  else week0

/-- Subtraction of `pandas.DateOffset(months = n)`: month arithmetic with the
day clamped to the target month's length. -/
def DateTime.subMonths (t : DateTime) (n : Int) : DateTime :=
  let mi := t.year * 12 + (t.month - 1) - n
  let y := Int.fdiv mi 12
  let m := mi - y * 12 + 1
  ⟨y, m, min t.day (daysInMonth y m), t.hour⟩

/-- Subtraction of `pandas.DateOffset(years = n)`: year arithmetic with the
day clamped (Feb 29 → Feb 28 in a non-leap year). -/
def DateTime.subYears (t : DateTime) (n : Int) : DateTime :=
  let y := t.year - n
  ⟨y, t.month, min t.day (daysInMonth y t.month), t.hour⟩

/-- The five supported forecast granularities (`Granularity` enum in
`ml/utils/granularity.py`). -/
inductive Granularity where
  | hourly
  | daily
  | weekly
  | monthly
  | yearly
  deriving DecidableEq, Repr

/-- A demand series: time-indexed rows of (timestamp, demand value),
mirroring a single-column pandas DataFrame. -/
abbrev Series := List (DateTime × ℚ)

/-- Value of row `i` (default `0` out of range, used only off the
quantified domain of the theorems). -/
def valAt (s : Series) (i : Nat) : ℚ :=
  ((s[i]?).map Prod.snd).getD 0

/-- Timestamp of row `i`. -/
def tsAt (s : Series) (i : Nat) : DateTime :=
  ((s[i]?).map Prod.fst).getD dtEpoch

/-! ## Feature builder (`ml/utils/features.py`)

A feature cell is `Option ℚ`; `none` models the `NaN` a pandas `shift` or
incomplete rolling window produces.  A feature table row is the association
list of column name to cell, in the column order the source creates them. -/

/-- Cell of the lag-`k` column at row `i`: `feat[target].shift(k)`. -/
def lagCell (s : Series) (k i : Nat) : Option ℚ :=
  if k ≤ i then some (valAt s (i - k)) else none

/-- Cell of a trailing-window mean at row `i`:
`feat[target].shift(1).rolling(w).mean()`, i.e. the mean of the `w` demand
values at rows `i - w, …, i - 1`; `NaN` until a full window exists. -/
def rollCell (s : Series) (w i : Nat) : Option ℚ :=
  if w ≤ i then
    some ((((List.range w).map (fun j => valAt s (i - w + j))).sum) / (w : ℚ))
  else none

/-- Feature row of `_build_hourly_features`:
calendar `hour, dow, month`; lags 1, 24, 168; rolling mean 24. -/
def hourlyRow (s : Series) (i : Nat) : List (String × Option ℚ) :=
  [("hour", some ((tsAt s i).hour : ℚ)),
   ("dow", some ((tsAt s i).dow : ℚ)),
   ("month", some ((tsAt s i).month : ℚ)),
   ("lag_1", lagCell s 1 i),
   ("lag_24", lagCell s 24 i),
   ("lag_168", lagCell s 168 i),
   ("roll_24_mean", rollCell s 24 i)]

/-- Feature row of `_build_daily_features`. -/
def dailyRow (s : Series) (i : Nat) : List (String × Option ℚ) :=
  [("dow", some ((tsAt s i).dow : ℚ)),
   ("month", some ((tsAt s i).month : ℚ)),
   ("day_of_year", some ((tsAt s i).dayOfYear : ℚ)),
   ("is_weekend", some (if (tsAt s i).dow ≥ 5 then (1 : ℚ) else 0)),
   ("lag_1", lagCell s 1 i),
   ("lag_7", lagCell s 7 i),
   ("roll_7_mean", rollCell s 7 i),
   ("roll_30_mean", rollCell s 30 i)]

/-- Feature row of `_build_weekly_features`; the long lag is `lag_52` when
more than 52 rows exist, else the fallback `lag_(min(len-1, 52))` and only
when that lag exceeds 4. -/
def weeklyRow (s : Series) (i : Nat) : List (String × Option ℚ) :=
  [("week_of_year", some ((tsAt s i).isoWeek : ℚ)),
   ("month", some ((tsAt s i).month : ℚ)),
   ("quarter", some ((tsAt s i).quarter : ℚ)),
   ("lag_1", lagCell s 1 i),
   ("lag_4", lagCell s 4 i)]
  ++ (if s.length > 52 then [("lag_52", lagCell s 52 i)]
      else if min (s.length - 1) 52 > 4 then
        [("lag_" ++ toString (min (s.length - 1) 52),
          lagCell s (min (s.length - 1) 52) i)]
      else [])
  ++ [("roll_4_mean", rollCell s 4 i)]

/-- Feature row of `_build_monthly_features`; long lag `lag_12` when more
than 12 rows, else fallback `lag_(min(len-1, 12))` when it exceeds 1;
`roll_12_mean` only when more than 12 rows. -/
def monthlyRow (s : Series) (i : Nat) : List (String × Option ℚ) :=
  [("month", some ((tsAt s i).month : ℚ)),
   ("quarter", some ((tsAt s i).quarter : ℚ)),
   ("lag_1", lagCell s 1 i)]
  ++ (if s.length > 12 then [("lag_12", lagCell s 12 i)]
      else if min (s.length - 1) 12 > 1 then
        [("lag_" ++ toString (min (s.length - 1) 12),
          lagCell s (min (s.length - 1) 12) i)]
      else [])
  ++ [("roll_3_mean", rollCell s 3 i)]
  ++ (if s.length > 12 then [("roll_12_mean", rollCell s 12 i)] else [])

/-- Feature row of `_build_yearly_features`. -/
def yearlyRow (s : Series) (i : Nat) : List (String × Option ℚ) :=
  [("lag_1", lagCell s 1 i)]
  ++ (if s.length > 2 then [("roll_2_mean", rollCell s 2 i)] else [])

/-- Feature row at table row `i` for a granularity — the dispatch of
`build_features`. -/
def featureRow (g : Granularity) (s : Series) (i : Nat) : List (String × Option ℚ) :=
  match g with
  | .hourly => hourlyRow s i
  | .daily => dailyRow s i
  | .weekly => weeklyRow s i
  | .monthly => monthlyRow s i
  | .yearly => yearlyRow s i

/-- A row of the finished feature table: timestamp, target value, feature
cells. -/
abbrev FeatureTableRow := DateTime × ℚ × List (String × Option ℚ)

/-- Function `build_features`: derive the granularity's feature row for every input
row, then drop the rows holding any `NaN` cell (`feat.dropna()`). -/
def buildFeatures (g : Granularity) (s : Series) : List FeatureTableRow :=
  (List.range s.length).filterMap (fun i =>
    if (featureRow g s i).all (fun c => c.2.isSome) then
      some (tsAt s i, valAt s i, featureRow g s i)
    else none)

/-! ## Temporal splitter (`ml/utils/data.py`, `train_test_split_temporal`)

The granularity argument is modelled as `Option Granularity`: `some g` is
one of the five enum members, `none` stands for any other dynamically
passed value, on which the source's final `else` raises
`ValueError("Unknown granularity")`. -/

/-- Errors of the splitter. -/
inductive SplitError where
  | unknownGranularity
  deriving DecidableEq, Repr

/-- Largest timestamp of a series, as `df.index.max()`; `dtEpoch` on the
empty series, off the claims' domain. -/
def maxTs (df : Series) : DateTime :=
  match df with
  | [] => dtEpoch
  | r :: rs => rs.foldl (fun acc x => if acc.toKey < x.1.toKey then x.1 else acc) r.1

/-- The `split_point`: the maximum timestamp minus `test_periods` in the
granularity's native duration — `Timedelta` hours/days/weeks for H/D/W,
`DateOffset` month/year arithmetic for M/Y. -/
def splitBoundary (g : Granularity) (maxT : DateTime) (testPeriods : Int) : DateTime :=
  match g with
  | .hourly => DateTime.ofKey (maxT.toKey - testPeriods)
  | .daily => DateTime.ofKey (maxT.toKey - 24 * testPeriods)
  | .weekly => DateTime.ofKey (maxT.toKey - 168 * testPeriods)
  | .monthly => maxT.subMonths testPeriods
  | .yearly => maxT.subYears testPeriods

/-- Rows at or before the boundary: `train = df[df.index <= split_point]`. -/
def trainPart (df : Series) (testPeriods : Int) (g : Granularity) : Series :=
  df.filter (fun r => decide (r.1.toKey ≤ (splitBoundary g (maxTs df) testPeriods).toKey))

/-- Rows after the boundary: `test = df[df.index > split_point]`. -/
def testPart (df : Series) (testPeriods : Int) (g : Granularity) : Series :=
  df.filter (fun r => decide ((splitBoundary g (maxTs df) testPeriods).toKey < r.1.toKey))

/-- Function `train_test_split_temporal`: compute the boundary, then return
the rows at or before it and the rows after it. -/
def trainTestSplitTemporal (df : Series) (testPeriods : Int)
    (g : Option Granularity) : Except SplitError (Series × Series) :=
  match g with
  | none => .error .unknownGranularity
  | some g => .ok (trainPart df testPeriods g, testPart df testPeriods g)

/-! ## Resampler (`ml/utils/data.py`, `resample_to_granularity`)

`df.resample(freq).agg(agg_func)` with pandas semantics: the result covers
the whole regular grid of calendar buckets from the bucket of the earliest
input point to the bucket of the latest one — buckets with no contributing
points included — and each bucket's value is the named reduction of the
points falling in it (`NaN`, modelled `none`, when the reduction of an
empty bucket is undefined).  The named reductions are the ones the pandas
aggregation dispatch accepts; an unrecognised name raises, modelled as
`InvalidAggregator`. -/

/-- Errors of the resampler. -/
inductive ResampleError where
  | invalidAggregator
  deriving DecidableEq, Repr

/-- Smallest timestamp of a series (`df.index.min()`). -/
def minTs (df : Series) : DateTime :=
  match df with
  | [] => dtEpoch
  | r :: rs => rs.foldl (fun acc x => if x.1.toKey < acc.toKey then x.1 else acc) r.1

/-- Insertion of a value into a sorted list of rationals. -/
def insertSorted (x : ℚ) : List ℚ → List ℚ
  | [] => [x]
  | y :: ys => if x ≤ y then x :: y :: ys else y :: insertSorted x ys

/-- Insertion sort of a list of rationals. -/
def sortQ : List ℚ → List ℚ
  | [] => []
  | x :: xs => insertSorted x (sortQ xs)

/-- Median of a list of rationals (pandas `median`). -/
def medianQ (xs : List ℚ) : ℚ :=
  let sorted := sortQ xs
  let n := sorted.length
  if n % 2 = 1 then sorted.getD (n / 2) 0
  else (sorted.getD (n / 2 - 1) 0 + sorted.getD (n / 2) 0) / 2

/-- The named reductions the pandas aggregation dispatch recognises (the
subset relevant here; `sum`/`count`/`prod` of an empty bucket are 0/0/1,
the order-based ones are `NaN`).  An unknown name yields `none`. -/
def aggFn (name : String) : Option (List ℚ → Option ℚ) :=
  if name = "sum" then some (fun xs => some xs.sum)
  else if name = "mean" then
    some (fun xs => if xs.isEmpty then none else some (xs.sum / (xs.length : ℚ)))
  else if name = "max" then
    some (fun xs => match xs with | [] => none | x :: t => some (t.foldl max x))
  else if name = "min" then
    some (fun xs => match xs with | [] => none | x :: t => some (t.foldl min x))
  else if name = "median" then
    some (fun xs => if xs.isEmpty then none else some (medianQ xs))
  else if name = "count" then some (fun xs => some (xs.length : ℚ))
  else if name = "first" then some (fun xs => xs.head?)
  else if name = "last" then some (fun xs => xs.getLast?)
  else if name = "prod" then some (fun xs => some xs.prod)
  else none

/-- Day index (days since epoch) of a timestamp. -/
def DateTime.dayIdx (t : DateTime) : Int :=
  Int.fdiv t.toKey 24

/-- Month index (months since year 0) of a timestamp. -/
def DateTime.monthIdx (t : DateTime) : Int :=
  t.year * 12 + t.month - 1

/-- Timestamp of a month index: that month's start. -/
def monthStartOfIdx (mi : Int) : DateTime :=
  ⟨Int.fdiv mi 12, mi - Int.fdiv mi 12 * 12 + 1, 1, 0⟩

/-- Bucket label of a timestamp under a resampling frequency:
`D` floors to midnight, `W-MON` labels by the right edge (the smallest
Monday midnight at or after the point), `MS` by month start, `YS` by year
start. -/
def bucketLabel (g : Granularity) (t : DateTime) : DateTime :=
  match g with
  | .hourly => t
  | .daily => DateTime.ofKey (t.dayIdx * 24)
  | .weekly =>
    let cand := t.dayIdx + Int.emod (7 - Int.emod (t.dayIdx + 3) 7) 7
    DateTime.ofKey ((if t.toKey ≤ cand * 24 then cand else cand + 7) * 24)
  | .monthly => monthStartOfIdx t.monthIdx
  | .yearly => ⟨t.year, 1, 1, 0⟩

/-- The regular bucket grid the resampler produces: every bucket label from
the first input point's bucket to the last one's, inclusive. -/
def grid (g : Granularity) (df : Series) : List DateTime :=
  match df with
  | [] => []
  | _ =>
    let lo := bucketLabel g (minTs df)
    let hi := bucketLabel g (maxTs df)
    match g with
    | .hourly => []
    | .daily =>
      (List.range (Int.toNat (hi.dayIdx - lo.dayIdx) + 1)).map
        (fun i => DateTime.ofKey ((lo.dayIdx + i) * 24))
    | .weekly =>
      (List.range (Int.toNat (Int.fdiv (hi.dayIdx - lo.dayIdx) 7) + 1)).map
        (fun i => DateTime.ofKey ((lo.dayIdx + 7 * i) * 24))
    | .monthly =>
      (List.range (Int.toNat (hi.monthIdx - lo.monthIdx) + 1)).map
        (fun i => monthStartOfIdx (lo.monthIdx + i))
    | .yearly =>
      (List.range (Int.toNat (hi.year - lo.year) + 1)).map
        (fun i => ⟨lo.year + i, 1, 1, 0⟩)

/-- Demand values of the input points falling in bucket `b`. -/
def bucketValues (df : Series) (g : Granularity) (b : DateTime) : List ℚ :=
  (df.filter (fun r => decide (bucketLabel g r.1 = b))).map Prod.snd

/-- Function `resample_to_granularity`: identity (a copy) for `HOURLY`, else the
named reduction applied per calendar bucket over the full bucket grid. -/
def resampleToGranularity (df : Series) (g : Granularity) (aggName : String) :
    Except ResampleError (List (DateTime × Option ℚ)) :=
  match g with
  | .hourly => .ok (df.map (fun r => (r.1, some r.2)))
  | _ =>
    match aggFn aggName with
    | none => .error .invalidAggregator
    | some f => .ok ((grid g df).map (fun b => (b, f (bucketValues df g b))))

/-! ## Metrics engine (`ml/utils/metrics.py`)

The metric functions are pure real-valued functions of two numeric arrays.
None of them checks lengths; the arrays meet in elementwise numpy
arithmetic, which pairs them by 1-d broadcasting — equal lengths zip, a
length-1 array is repeated against the other, and any other length
combination raises, modelled as `InvalidInput`. -/

/-- Errors of the metrics engine. -/
inductive MetricsError where
  | invalidInput
  deriving DecidableEq, Repr

/-- Numpy 1-d broadcasting of two arrays into pairs: `none` models the
`ValueError` on incompatible shapes. -/
def broadcastPairs (a p : List ℝ) : Option (List (ℝ × ℝ)) :=
  if a.length = p.length then some (a.zip p)
  else if a.length = 1 then some (p.map (fun y => (a.headD 0, y)))
  else if p.length = 1 then some (a.map (fun x => (x, p.headD 0)))
  else none

/-- Mean of a list of reals (`np.mean`). -/
noncomputable def listMean (l : List ℝ) : ℝ := l.sum / (l.length : ℝ)

/-- The division guard `eps = 1e-8` of `smape` and `mape`. -/
noncomputable def epsDefault : ℝ := 1 / 100000000

/-- The `mae` kernel on broadcast pairs: `mean(|y_true - y_pred|)`. -/
noncomputable def maeVal (pairs : List (ℝ × ℝ)) : ℝ :=
  listMean (pairs.map (fun q => |q.1 - q.2|))

/-- The `rmse` kernel: `sqrt(mean((y_true - y_pred) ** 2))`. -/
noncomputable def rmseVal (pairs : List (ℝ × ℝ)) : ℝ :=
  Real.sqrt (listMean (pairs.map (fun q => (q.1 - q.2) ^ 2)))

/-- The `smape` kernel:
`mean(|y_pred - y_true| / ((|y_true| + |y_pred|) / 2 + eps)) * 100`. -/
noncomputable def smapeVal (pairs : List (ℝ × ℝ)) : ℝ :=
  listMean (pairs.map (fun q => |q.2 - q.1| / ((|q.1| + |q.2|) / 2 + epsDefault))) * 100

/-- The `mape` kernel: `mean(|(y_true - y_pred) / (y_true + eps)|) * 100`. -/
noncomputable def mapeVal (pairs : List (ℝ × ℝ)) : ℝ :=
  listMean (pairs.map (fun q => |(q.1 - q.2) / (q.1 + epsDefault)|)) * 100

/-- Metric `mae(y_true, y_pred)` as called on two arrays. -/
noncomputable def mae (a p : List ℝ) : ℝ := maeVal ((broadcastPairs a p).getD [])

/-- Metric `rmse(y_true, y_pred)` as called on two arrays. -/
noncomputable def rmse (a p : List ℝ) : ℝ := rmseVal ((broadcastPairs a p).getD [])

/-- Metric `smape(y_true, y_pred)` as called on two arrays. -/
noncomputable def smape (a p : List ℝ) : ℝ := smapeVal ((broadcastPairs a p).getD [])

/-- Metric `mape(y_true, y_pred)` as called on two arrays. -/
noncomputable def mape (a p : List ℝ) : ℝ := mapeVal ((broadcastPairs a p).getD [])

/-- Rounding `round(x, 2)`: round to two decimal places. -/
noncomputable def round2 (x : ℝ) : ℝ := (round (x * 100) : ℤ) / 100

/-- The record `compute_all_metrics` returns. -/
structure MetricsResult where
  mae : ℝ
  rmse : ℝ
  smape : ℝ
  mape : ℝ

/-- Function `compute_all_metrics`: the four metrics, each rounded to 2 decimals;
fails only when the two arrays cannot be broadcast together. -/
noncomputable def computeAllMetrics (a p : List ℝ) : Except MetricsError MetricsResult :=
  match broadcastPairs a p with
  | none => .error .invalidInput
  | some pairs =>
    .ok ⟨round2 (maeVal pairs), round2 (rmseVal pairs),
         round2 (smapeVal pairs), round2 (mapeVal pairs)⟩

/-- Success test for `Except`. -/
def isOkE {ε α : Type} : Except ε α → Bool
  | .ok _ => true
  | .error _ => false

/-- Decidable equality of `Except` values with decidable components. -/
instance {ε α : Type} [DecidableEq ε] [DecidableEq α] : DecidableEq (Except ε α) := fun x y =>
  match x, y with
  | .ok v, .ok w =>
    if h : v = w then isTrue (by rw [h]) else isFalse (by intro hc; cases hc; exact h rfl)
  | .error v, .error w =>
    if h : v = w then isTrue (by rw [h]) else isFalse (by intro hc; cases hc; exact h rfl)
  | .ok _, .error _ => isFalse (by intro hc; cases hc)
  | .error _, .ok _ => isFalse (by intro hc; cases hc)

unseal Rat.add Rat.mul Rat.inv Rat.sub Rat.ofScientific

/-! ## Claims -/

/-- C10: on the `HOURLY` path `resample_to_granularity` returns a copy of
the input unchanged for every value of the aggregator argument — including
names outside `{sum, mean, max, min}` — because the hourly branch returns
before the aggregator is ever looked at. -/
theorem resample_hourly_identity (df : Series) (aggName : String) :
    resampleToGranularity df .hourly aggName = .ok (df.map (fun r => (r.1, some r.2))) :=
  rfl

/-- C9: building hourly features on a series of exactly 72 points succeeds
and returns the empty feature table — every row lacks the 168-period lag
history, so `dropna` removes all of them. -/
theorem hourly_features_72_rows_empty (s : Series) (h : s.length = 72) :
    buildFeatures .hourly s = [] := by
  unfold buildFeatures
  rw [h]
  refine List.filterMap_eq_nil_iff.mpr ?_
  intro i hi
  rw [List.mem_range] at hi
  have h168 : ¬ (168 ≤ i) := by omega
  simp [featureRow, hourlyRow, lagCell, h168]

/-- Witness for C9: a concrete 72-point hourly series yields an empty
feature table. -/
theorem hourly_features_72_rows_empty_witness :
    buildFeatures .hourly (List.replicate 72 (dtEpoch, (1 : ℚ))) = [] :=
  hourly_features_72_rows_empty _ (List.length_replicate 72 _)

/-- C7: the weekly feature recipe adds `lag_52` exactly when the series has
more than 52 rows; with at most 52 rows it adds the single fallback lag
`min(length - 1, 52) = length - 1`, and only when that lag exceeds 4; when
no feasible lag exceeds 4 it adds no long-range lag column at all. -/
theorem weekly_long_lag_policy (s : Series) (i : Nat) :
    (52 < s.length →
      (weeklyRow s i).map Prod.fst =
        ["week_of_year", "month", "quarter", "lag_1", "lag_4", "lag_52", "roll_4_mean"])
    ∧ (s.length ≤ 52 → 4 < min (s.length - 1) 52 →
      (weeklyRow s i).map Prod.fst =
        ["week_of_year", "month", "quarter", "lag_1", "lag_4",
         "lag_" ++ toString (s.length - 1), "roll_4_mean"])
    ∧ (s.length ≤ 52 → min (s.length - 1) 52 ≤ 4 →
      (weeklyRow s i).map Prod.fst =
        ["week_of_year", "month", "quarter", "lag_1", "lag_4", "roll_4_mean"]) := by
  refine ⟨fun h => ?_, fun h hk => ?_, fun h hk => ?_⟩
  · rw [weeklyRow, if_pos h]
    simp
  · have hmin : min (s.length - 1) 52 = s.length - 1 := by omega
    rw [weeklyRow, if_neg (by omega), if_pos hk, hmin]
    simp
  · rw [weeklyRow, if_neg (by omega), if_neg (by omega)]
    simp

/-- Witness for C7: the three regimes at concrete weekly series of lengths
60, 6 and 4. -/
theorem weekly_long_lag_policy_witness :
    (weeklyRow (List.replicate 60 (dtEpoch, (0 : ℚ))) 0).map Prod.fst =
      ["week_of_year", "month", "quarter", "lag_1", "lag_4", "lag_52", "roll_4_mean"]
    ∧ (weeklyRow (List.replicate 6 (dtEpoch, (0 : ℚ))) 0).map Prod.fst =
      ["week_of_year", "month", "quarter", "lag_1", "lag_4", "lag_5", "roll_4_mean"]
    ∧ (weeklyRow (List.replicate 4 (dtEpoch, (0 : ℚ))) 0).map Prod.fst =
      ["week_of_year", "month", "quarter", "lag_1", "lag_4", "roll_4_mean"] :=
  ⟨(weekly_long_lag_policy _ 0).1 (by simp),
   (weekly_long_lag_policy _ 0).2.1 (by simp) (by simp),
   (weekly_long_lag_policy _ 0).2.2 (by simp) (by simp)⟩

/-- Complementing the split predicate: a row is after the boundary exactly
when it is not at or before it. -/
theorem testPart_eq_filter_not (df : Series) (p : Int) (g : Granularity) :
    testPart df p g =
      df.filter (fun r => !(decide (r.1.toKey ≤ (splitBoundary g (maxTs df) p).toKey))) := by
  unfold testPart
  refine List.filter_congr ?_
  intro r _
  rcases le_or_lt r.1.toKey (splitBoundary g (maxTs df) p).toKey with h | h
  · simp [h, not_lt.mpr h]
  · simp [h, not_le.mpr h]

/-- C2: for a non-empty feature table the temporal split computes the
boundary as `max(timestamp)` minus `testPeriods` native-duration units
(hours, days, weeks, calendar months, calendar years), returns exactly the
rows at or before the boundary as train and the rows after it as test;
the two parts are disjoint, together they are a permutation of the input,
every train row is at or before the boundary and every test row strictly
after it; an unsupported granularity value fails with
`UnknownGranularity`. -/
theorem temporal_split_partition (df : Series) (p : Int) (g : Granularity)
    (_hdf : df ≠ []) :
    trainTestSplitTemporal df p (some g) = .ok (trainPart df p g, testPart df p g)
    ∧ (∀ r ∈ trainPart df p g, r.1.toKey ≤ (splitBoundary g (maxTs df) p).toKey)
    ∧ (∀ r ∈ testPart df p g, (splitBoundary g (maxTs df) p).toKey < r.1.toKey)
    ∧ (∀ r : DateTime × ℚ, ¬ (r ∈ trainPart df p g ∧ r ∈ testPart df p g))
    ∧ (trainPart df p g ++ testPart df p g).Perm df
    ∧ trainTestSplitTemporal df p none = .error .unknownGranularity := by
  refine ⟨rfl, ?_, ?_, ?_, ?_, rfl⟩
  · intro r hr
    rw [trainPart, List.mem_filter] at hr
    exact of_decide_eq_true hr.2
  · intro r hr
    rw [testPart, List.mem_filter] at hr
    exact of_decide_eq_true hr.2
  · rintro r ⟨h1, h2⟩
    rw [trainPart, List.mem_filter] at h1
    rw [testPart, List.mem_filter] at h2
    exact absurd (of_decide_eq_true h1.2) (not_le.mpr (of_decide_eq_true h2.2))
  · rw [testPart_eq_filter_not]
    exact List.filter_append_perm _ df

/-- Witness for C2: the split invariants at a concrete two-day daily
table. -/
theorem temporal_split_partition_witness :
    (trainPart [(dtEpoch, (0 : ℚ)), (⟨1970, 1, 2, 0⟩, 1)] 1 .daily
        ++ testPart [(dtEpoch, (0 : ℚ)), (⟨1970, 1, 2, 0⟩, 1)] 1 .daily).Perm
      [(dtEpoch, (0 : ℚ)), (⟨1970, 1, 2, 0⟩, 1)]
    ∧ trainTestSplitTemporal [(dtEpoch, (0 : ℚ)), (⟨1970, 1, 2, 0⟩, 1)] 1 none
      = .error .unknownGranularity :=
  (temporal_split_partition _ 1 .daily (List.cons_ne_nil _ _)).2.2.2.2

/-- Reduction of the resampler on the non-hourly granularities: aggregator
lookup, then the per-bucket reduction over the full grid. -/
theorem resample_nonhourly_eq (df : Series) (g : Granularity) (a : String)
    (hg : g ≠ .hourly) :
    resampleToGranularity df g a =
      match aggFn a with
      | none => .error .invalidAggregator
      | some f => .ok ((grid g df).map (fun b => (b, f (bucketValues df g b)))) := by
  cases g
  · exact absurd rfl hg
  all_goals rfl

/-- Reduction of the resampler when the aggregator name is recognised. -/
theorem resample_known_agg (df : Series) (g : Granularity) (hg : g ≠ .hourly)
    (f : List ℚ → Option ℚ) (a : String) (hf : aggFn a = some f) :
    resampleToGranularity df g a =
      .ok ((grid g df).map (fun b => (b, f (bucketValues df g b)))) := by
  rw [resample_nonhourly_eq df g a hg, hf]

/-- Counterexample to C5: `median` lies outside `{sum, mean, max, min}`
yet the resampler accepts it, because the aggregator name is only ever
interpreted by the pandas aggregation dispatch, which knows `median`. -/
theorem resample_unknown_agg_cex :
    resampleToGranularity [(⟨2026, 1, 1, 0⟩, (1 : ℚ))] .daily "median"
      = .ok [(⟨2026, 1, 1, 0⟩, some 1)]
    ∧ "median" ∉ (["sum", "mean", "max", "min"] : List String) :=
  ⟨by decide, by decide⟩

/-- C5 (amended): the resampler succeeds for `sum`, `mean`, `max` and
`min`; on a non-hourly target it succeeds exactly for the aggregator names
the aggregation dispatch recognises (a strict superset of those four), and
fails with `InvalidAggregator` precisely for unrecognised names. -/
theorem resample_aggregator_validation (df : Series) (a : String) (g : Granularity) :
    (a ∈ (["sum", "mean", "max", "min"] : List String) →
      isOkE (resampleToGranularity df g a) = true)
    ∧ (g ≠ .hourly →
      (isOkE (resampleToGranularity df g a) = true ↔ (aggFn a).isSome = true))
    ∧ (g ≠ .hourly → aggFn a = none →
      resampleToGranularity df g a = .error .invalidAggregator) := by
  refine ⟨?_, ?_, ?_⟩
  · intro ha
    simp only [List.mem_cons, List.not_mem_nil, or_false] at ha
    cases g
    · rfl
    all_goals rcases ha with rfl | rfl | rfl | rfl <;> rfl
  · intro hg
    rw [resample_nonhourly_eq df g a hg]
    rcases h : aggFn a with _ | f <;> simp [isOkE]
  · intro hg hnone
    rw [resample_nonhourly_eq df g a hg, hnone]

/-- Witness for C5: a recognised and an unrecognised aggregator at a
concrete daily resampling. -/
theorem resample_aggregator_validation_witness :
    isOkE (resampleToGranularity [(⟨2026, 1, 1, 0⟩, (1 : ℚ))] .daily "sum") = true
    ∧ resampleToGranularity [(⟨2026, 1, 1, 0⟩, (1 : ℚ))] .daily "nonsense"
      = .error .invalidAggregator :=
  ⟨(resample_aggregator_validation _ "sum" .daily).1 (by decide),
   (resample_aggregator_validation _ "nonsense" .daily).2.2 (by decide) rfl⟩

/-- Counterexample to C6: resampling the two-point series Jan 1 / Jan 3 to
daily produces a row for the empty Jan 2 bucket (zero-filled under `sum`),
although no input point falls in that bucket. -/
theorem resample_empty_bucket_cex :
    resampleToGranularity [(⟨2026, 1, 1, 0⟩, (1 : ℚ)), (⟨2026, 1, 3, 0⟩, 2)] .daily "sum"
      = .ok [(⟨2026, 1, 1, 0⟩, some 1), (⟨2026, 1, 2, 0⟩, some 0), (⟨2026, 1, 3, 0⟩, some 2)]
    ∧ bucketLabel .daily ⟨2026, 1, 1, 0⟩ ≠ ⟨2026, 1, 2, 0⟩
    ∧ bucketLabel .daily ⟨2026, 1, 3, 0⟩ ≠ ⟨2026, 1, 2, 0⟩ :=
  ⟨by decide, by decide, by decide⟩

/-- C6 (amended): on a non-hourly target, for each of the four supported
aggregators the result covers the whole bucket grid spanned by the input —
buckets with no contributing points are present, not omitted, holding the
reduction of the empty list (0 for `sum`, a missing value for the
others). -/
theorem resample_empty_buckets_present (df : Series) (g : Granularity) (a : String)
    (_hdf : df ≠ []) (hg : g ≠ .hourly)
    (ha : a ∈ (["sum", "mean", "max", "min"] : List String)) :
    (resampleToGranularity df g a).map (fun res => res.map Prod.fst) = .ok (grid g df)
    ∧ ∀ b ∈ grid g df, bucketValues df g b = [] →
        (resampleToGranularity df g a).map
          (fun res => decide ((b, if a = "sum" then some (0 : ℚ) else none) ∈ res))
          = .ok true := by
  simp only [List.mem_cons, List.not_mem_nil, or_false] at ha
  have main : ∀ f : List ℚ → Option ℚ, aggFn a = some f →
      f [] = (if a = "sum" then some (0 : ℚ) else none) →
      (resampleToGranularity df g a).map (fun res => res.map Prod.fst) = .ok (grid g df)
      ∧ ∀ b ∈ grid g df, bucketValues df g b = [] →
          (resampleToGranularity df g a).map
            (fun res => decide ((b, if a = "sum" then some (0 : ℚ) else none) ∈ res))
            = .ok true := by
    intro f hf hf0
    have hres := resample_known_agg df g hg f a hf
    constructor
    · rw [hres]
      simp only [Except.map, List.map_map]
      refine congrArg Except.ok ?_
      exact (List.map_congr_left (fun b _ => rfl)).trans (List.map_id _)
    · intro b hb he
      rw [hres]
      simp only [Except.map]
      refine congrArg Except.ok ?_
      rw [decide_eq_true_eq]
      exact List.mem_map.mpr ⟨b, hb, by rw [he, hf0]⟩
  rcases ha with rfl | rfl | rfl | rfl
  · exact main _ rfl rfl
  · exact main _ rfl rfl
  · exact main _ rfl rfl
  · exact main _ rfl rfl

/-- Witness for C6: the Jan 1 / Jan 3 series under `mean`; the empty Jan 2
bucket is present as a missing value. -/
theorem resample_empty_buckets_present_witness :
    (resampleToGranularity [(⟨2026, 1, 1, 0⟩, (1 : ℚ)), (⟨2026, 1, 3, 0⟩, 2)] .daily "mean").map
        (fun res => res.map Prod.fst)
      = .ok (grid .daily [(⟨2026, 1, 1, 0⟩, (1 : ℚ)), (⟨2026, 1, 3, 0⟩, 2)])
    ∧ (resampleToGranularity [(⟨2026, 1, 1, 0⟩, (1 : ℚ)), (⟨2026, 1, 3, 0⟩, 2)] .daily "mean").map
        (fun res => decide
          ((⟨2026, 1, 2, 0⟩, if "mean" = "sum" then some (0 : ℚ) else none) ∈ res))
      = .ok true :=
  have h := resample_empty_buckets_present
    [(⟨2026, 1, 1, 0⟩, (1 : ℚ)), (⟨2026, 1, 3, 0⟩, 2)] .daily "mean"
    (List.cons_ne_nil _ _) (by decide) (by decide)
  ⟨h.1, h.2 ⟨2026, 1, 2, 0⟩ (by decide) (by decide)⟩

/-- Equal timestamp sequences give equal per-row timestamps. -/
theorem tsAt_congr {s₁ s₂ : Series} (hts : s₁.map Prod.fst = s₂.map Prod.fst)
    (j : Nat) : tsAt s₁ j = tsAt s₂ j := by
  unfold tsAt
  rw [← List.getElem?_map, hts, List.getElem?_map]

/-- Equal timestamp sequences give equal lengths. -/
theorem length_congr_of_ts {s₁ s₂ : Series}
    (hts : s₁.map Prod.fst = s₂.map Prod.fst) : s₁.length = s₂.length := by
  have h := congrArg List.length hts
  simpa using h

/-- A lag cell at row `i` only reads the value `k ≥ 1` rows earlier. -/
theorem lagCell_congr {s₁ s₂ : Series} {i : Nat}
    (hagree : ∀ j, j < i → valAt s₁ j = valAt s₂ j) {k : Nat} (hk : 1 ≤ k) :
    lagCell s₁ k i = lagCell s₂ k i := by
  unfold lagCell
  by_cases h : k ≤ i
  · rw [if_pos h, if_pos h, hagree (i - k) (by omega)]
  · rw [if_neg h, if_neg h]

/-- A shifted rolling-mean cell at row `i` only reads the `w ≥ 1` values at
rows `i - w, …, i - 1`. -/
theorem rollCell_congr {s₁ s₂ : Series} {i : Nat}
    (hagree : ∀ j, j < i → valAt s₁ j = valAt s₂ j) (w : Nat) :
    rollCell s₁ w i = rollCell s₂ w i := by
  unfold rollCell
  by_cases h : w ≤ i
  · rw [if_pos h, if_pos h]
    refine congrArg _ (congrArg (fun x => x / (w : ℚ)) (congrArg List.sum ?_))
    refine List.map_congr_left ?_
    intro j hj
    rw [List.mem_range] at hj
    exact hagree (i - w + j) (by omega)
  · rw [if_neg h, if_neg h]

/-- C1: no look-ahead.  For every granularity, if two series carry the same
timestamps and agree on the demand values at all rows strictly before `i`,
then the whole feature row at `i` — calendar, lag and rolling cells alike —
is identical: no feature value at a row depends on the demand at or after
that row. -/
theorem no_lookahead (g : Granularity) (s₁ s₂ : Series) (i : Nat)
    (hts : s₁.map Prod.fst = s₂.map Prod.fst)
    (hagree : ∀ j, j < i → valAt s₁ j = valAt s₂ j) :
    featureRow g s₁ i = featureRow g s₂ i := by
  have hlen := length_congr_of_ts hts
  have hts' := tsAt_congr hts i
  cases g
  · show hourlyRow s₁ i = hourlyRow s₂ i
    unfold hourlyRow
    rw [hts', lagCell_congr hagree (by norm_num), lagCell_congr hagree (by norm_num),
      lagCell_congr hagree (by norm_num), rollCell_congr hagree _]
  · show dailyRow s₁ i = dailyRow s₂ i
    unfold dailyRow
    rw [hts', lagCell_congr hagree (by norm_num), lagCell_congr hagree (by norm_num),
      rollCell_congr hagree _, rollCell_congr hagree _]
  · show weeklyRow s₁ i = weeklyRow s₂ i
    unfold weeklyRow
    rw [hts', hlen, lagCell_congr hagree (by norm_num), lagCell_congr hagree (by norm_num),
      rollCell_congr hagree _]
    congr 1
    congr 1
    split_ifs with h1 h2
    · rw [lagCell_congr hagree (by norm_num)]
    · rw [lagCell_congr hagree (by omega)]
    · rfl
  · show monthlyRow s₁ i = monthlyRow s₂ i
    unfold monthlyRow
    rw [hts', hlen, lagCell_congr hagree (by norm_num),
      rollCell_congr hagree _]
    congr 1
    congr 1
    · split_ifs with h1 h2
      · rw [lagCell_congr hagree (by norm_num)]
      · rw [lagCell_congr hagree (by omega)]
      · rfl
    congr 1
    rw [rollCell_congr hagree _]
  · show yearlyRow s₁ i = yearlyRow s₂ i
    unfold yearlyRow
    rw [hlen, lagCell_congr hagree (by norm_num)]
    congr 1
    split_ifs with h1
    · rw [rollCell_congr hagree _]
    · rfl

/-- Witness for C1: two concrete two-row hourly series that differ only in
the demand value at row 1 have identical feature rows at row 1. -/
theorem no_lookahead_witness :
    featureRow .hourly [(dtEpoch, (1 : ℚ)), (⟨1970, 1, 1, 1⟩, 2)] 1
      = featureRow .hourly [(dtEpoch, (1 : ℚ)), (⟨1970, 1, 1, 1⟩, 99)] 1 :=
  no_lookahead .hourly _ _ 1 rfl
    (fun j hj => by
      have hj0 : j = 0 := Nat.lt_one_iff.mp hj
      rw [hj0]
      rfl)

/-- Counterexample to C4: a length-1 actual array against a length-3
predicted array has mismatched lengths, yet `compute_all_metrics` succeeds,
because the elementwise numpy arithmetic broadcasts the singleton. -/
theorem computeAll_length_mismatch_cex :
    isOkE (computeAllMetrics [(5 : ℝ)] [1, 2, 3]) = true
    ∧ [(5 : ℝ)].length ≠ [(1 : ℝ), 2, 3].length := by
  constructor
  · rfl
  · decide

/-- C4 (amended): `compute_all_metrics` succeeds exactly when the two
arrays are broadcast-compatible — equal lengths, or either array of
length 1 — and fails with `InvalidInput` on every other length
combination; it has no other error condition. -/
theorem computeAll_error_iff (a p : List ℝ) :
    (isOkE (computeAllMetrics a p) = true
      ↔ (a.length = p.length ∨ a.length = 1 ∨ p.length = 1))
    ∧ (¬ (a.length = p.length ∨ a.length = 1 ∨ p.length = 1) →
      computeAllMetrics a p = .error .invalidInput) := by
  unfold computeAllMetrics broadcastPairs
  by_cases h1 : a.length = p.length
  · simp [h1, isOkE]
  · by_cases h2 : a.length = 1
    · have h1' : ¬ (1 = p.length) := by rw [← h2]; exact h1
      simp [h1, h2, h1', isOkE]
    · by_cases h3 : p.length = 1
      · simp [h1, h2, h3, isOkE]
      · simp [h1, h2, h3, isOkE]

/-- Witness for C4: a broadcastable pair with unequal lengths succeeds and
a non-broadcastable pair fails. -/
theorem computeAll_error_iff_witness :
    isOkE (computeAllMetrics [(1 : ℝ)] [2, 3]) = true
    ∧ computeAllMetrics [(1 : ℝ), 2] [3, 4, 5] = .error .invalidInput :=
  ⟨(computeAll_error_iff [(1 : ℝ)] [2, 3]).1.mpr (Or.inr (Or.inl rfl)),
   (computeAll_error_iff [(1 : ℝ), 2] [3, 4, 5]).2 (by decide)⟩

/-- Evaluation rule for `round2` from two-sided bounds. -/
theorem round2_eq_of_bounds (x : ℝ) (k : ℤ) (h1 : (k : ℝ) ≤ x * 100 + 1 / 2)
    (h2 : x * 100 + 1 / 2 < (k : ℝ) + 1) : round2 x = (k : ℝ) / 100 := by
  unfold round2
  rw [round_eq]
  rw [show ⌊x * 100 + 1 / 2⌋ = k from Int.floor_eq_iff.mpr ⟨h1, by exact_mod_cast h2⟩]

/-- The broadcast pairs of the `computeAll` scenario arrays. -/
theorem scenario_pairs :
    broadcastPairs [(100 : ℝ), 200, 300] [110, 190, 300]
      = some [((100 : ℝ), (110 : ℝ)), (200, 190), (300, 300)] := rfl

/-- The mean absolute error of the scenario is `20/3 ≈ 6.67`. -/
theorem scenario_mae : maeVal [((100 : ℝ), (110 : ℝ)), (200, 190), (300, 300)] = 20 / 3 := by
  unfold maeVal listMean
  simp only [List.map_cons, List.map_nil, List.sum_cons, List.sum_nil,
    List.length_cons, List.length_nil]
  rw [show |(100 : ℝ) - 110| = 10 by rw [abs_of_nonpos (by norm_num)]; norm_num,
    show |(200 : ℝ) - 190| = 10 by rw [abs_of_nonneg (by norm_num)]; norm_num,
    show |(300 : ℝ) - 300| = 0 by norm_num]
  norm_num

/-- The root mean squared error of the scenario is `√(200/3) ≈ 8.165`. -/
theorem scenario_rmse :
    rmseVal [((100 : ℝ), (110 : ℝ)), (200, 190), (300, 300)] = Real.sqrt (200 / 3) := by
  unfold rmseVal listMean
  norm_num

/-- Counterexample to C3: the scenario's `rmse` rounds to 8.16, not to the
claimed 7.07 — `sqrt(mean([10², 10², 0²])) = sqrt(200/3) ≈ 8.165`. -/
theorem computeAll_scenario_rmse_cex :
    (computeAllMetrics [(100 : ℝ), 200, 300] [110, 190, 300]).map MetricsResult.rmse
      = .ok (8.16 : ℝ)
    ∧ (8.16 : ℝ) ≠ 7.07 := by
  constructor
  · have hok : computeAllMetrics [(100 : ℝ), 200, 300] [110, 190, 300]
        = .ok ⟨round2 (maeVal [((100 : ℝ), (110 : ℝ)), (200, 190), (300, 300)]),
               round2 (rmseVal [((100 : ℝ), (110 : ℝ)), (200, 190), (300, 300)]),
               round2 (smapeVal [((100 : ℝ), (110 : ℝ)), (200, 190), (300, 300)]),
               round2 (mapeVal [((100 : ℝ), (110 : ℝ)), (200, 190), (300, 300)])⟩ := by
      unfold computeAllMetrics
      rw [scenario_pairs]
    rw [hok]
    simp only [Except.map]
    refine congrArg Except.ok ?_
    rw [scenario_rmse]
    have hlow : (8.155 : ℝ) ≤ Real.sqrt (200 / 3) :=
      (Real.le_sqrt (by norm_num) (by norm_num)).mpr (by norm_num)
    have hhigh : Real.sqrt (200 / 3) < 8.165 :=
      (Real.sqrt_lt' (by norm_num)).mpr (by norm_num)
    rw [round2_eq_of_bounds _ 816 (by push_cast; linarith) (by push_cast; linarith)]
    norm_num
  · norm_num

/-- The scenario's rounded `smape` is 4.88 percent. -/
theorem scenario_smape_round :
    round2 (smapeVal [((100 : ℝ), (110 : ℝ)), (200, 190), (300, 300)]) = 4.88 := by
  have hs : smapeVal [((100 : ℝ), (110 : ℝ)), (200, 190), (300, 300)]
      = (10 / (105 + 1 / 100000000) + 10 / (195 + 1 / 100000000)) / 3 * 100 := by
    unfold smapeVal listMean epsDefault
    simp only [List.map_cons, List.map_nil, List.sum_cons, List.sum_nil,
      List.length_cons, List.length_nil]
    rw [show |(110 : ℝ) - 100| = 10 by rw [abs_of_nonneg (by norm_num)]; norm_num,
      show |(190 : ℝ) - 200| = 10 by rw [abs_of_nonpos (by norm_num)]; norm_num,
      show |(300 : ℝ) - 300| = 0 by norm_num,
      show |(100 : ℝ)| = 100 by rw [abs_of_nonneg (by norm_num)],
      show |(110 : ℝ)| = 110 by rw [abs_of_nonneg (by norm_num)],
      show |(200 : ℝ)| = 200 by rw [abs_of_nonneg (by norm_num)],
      show |(190 : ℝ)| = 190 by rw [abs_of_nonneg (by norm_num)],
      show |(300 : ℝ)| = 300 by rw [abs_of_nonneg (by norm_num)]]
    norm_num
  rw [hs, round2_eq_of_bounds _ 488 (by norm_num) (by norm_num)]
  norm_num

/-- The scenario's rounded `mape` is 5 percent. -/
theorem scenario_mape_round :
    round2 (mapeVal [((100 : ℝ), (110 : ℝ)), (200, 190), (300, 300)]) = 5 := by
  have hm : mapeVal [((100 : ℝ), (110 : ℝ)), (200, 190), (300, 300)]
      = (10 / (100 + 1 / 100000000) + 10 / (200 + 1 / 100000000)) / 3 * 100 := by
    unfold mapeVal listMean epsDefault
    simp only [List.map_cons, List.map_nil, List.sum_cons, List.sum_nil,
      List.length_cons, List.length_nil]
    rw [abs_div, abs_div, abs_div]
    rw [show |(100 : ℝ) - 110| = 10 by rw [abs_of_nonpos (by norm_num)]; norm_num,
      show |(200 : ℝ) - 190| = 10 by rw [abs_of_nonneg (by norm_num)]; norm_num,
      show |(300 : ℝ) - 300| = 0 by norm_num,
      show |(100 : ℝ) + 1 / 100000000| = 100 + 1 / 100000000 by
        rw [abs_of_nonneg (by norm_num)],
      show |(200 : ℝ) + 1 / 100000000| = 200 + 1 / 100000000 by
        rw [abs_of_nonneg (by norm_num)]]
    norm_num
  rw [hm, round2_eq_of_bounds _ 500 (by norm_num) (by norm_num)]
  norm_num

/-- C3 (amended): the scenario `computeAll([100,200,300], [110,190,300])`
yields `mae = 6.67` as claimed, `rmse = 8.16` (the value the stated formula
`sqrt(mean((actual − predicted)²))` actually produces, not 7.07), and the
small positive percentages `smape = 4.88`, `mape = 5`. -/
theorem computeAll_scenario :
    computeAllMetrics [(100 : ℝ), 200, 300] [110, 190, 300]
      = .ok ⟨6.67, 8.16, 4.88, 5⟩
    ∧ (0 : ℝ) < 4.88 ∧ (4.88 : ℝ) < 10 ∧ (0 : ℝ) < 5 ∧ (5 : ℝ) < 10 := by
  refine ⟨?_, by norm_num, by norm_num, by norm_num, by norm_num⟩
  have hok : computeAllMetrics [(100 : ℝ), 200, 300] [110, 190, 300]
      = .ok ⟨round2 (maeVal [((100 : ℝ), (110 : ℝ)), (200, 190), (300, 300)]),
             round2 (rmseVal [((100 : ℝ), (110 : ℝ)), (200, 190), (300, 300)]),
             round2 (smapeVal [((100 : ℝ), (110 : ℝ)), (200, 190), (300, 300)]),
             round2 (mapeVal [((100 : ℝ), (110 : ℝ)), (200, 190), (300, 300)])⟩ := by
    unfold computeAllMetrics
    rw [scenario_pairs]
  rw [hok]
  refine congrArg Except.ok ?_
  have h1 : round2 (maeVal [((100 : ℝ), (110 : ℝ)), (200, 190), (300, 300)]) = 6.67 := by
    rw [scenario_mae, round2_eq_of_bounds _ 667 (by norm_num) (by norm_num)]
    norm_num
  have h2 : round2 (rmseVal [((100 : ℝ), (110 : ℝ)), (200, 190), (300, 300)]) = 8.16 := by
    rw [scenario_rmse]
    have hlow : (8.155 : ℝ) ≤ Real.sqrt (200 / 3) :=
      (Real.le_sqrt (by norm_num) (by norm_num)).mpr (by norm_num)
    have hhigh : Real.sqrt (200 / 3) < 8.165 :=
      (Real.sqrt_lt' (by norm_num)).mpr (by norm_num)
    rw [round2_eq_of_bounds _ 816 (by push_cast; linarith) (by push_cast; linarith)]
    norm_num
  rw [h1, h2, scenario_smape_round, scenario_mape_round]

/-- Expansion of a sum of squared deviations. -/
theorem listSum_sq_dev (l : List ℝ) (c : ℝ) :
    (l.map (fun x => (x - c) ^ 2)).sum
      = (l.map (fun x => x ^ 2)).sum - 2 * c * l.sum + l.length * c ^ 2 := by
  induction l with
  | nil => simp
  | cons x xs ih =>
    simp only [List.map_cons, List.sum_cons, List.length_cons, ih]
    push_cast
    ring

/-- A list of nonnegative reals holding a positive member has positive
sum. -/
theorem listSum_pos_of_mem {l : List ℝ} (h0 : ∀ y ∈ l, 0 ≤ y) {x : ℝ}
    (hx : x ∈ l) (hpos : 0 < x) : 0 < l.sum := by
  induction l with
  | nil => cases hx
  | cons a as ih =>
    rw [List.sum_cons]
    rcases List.mem_cons.mp hx with rfl | hmem
    · have hs : 0 ≤ as.sum :=
        List.sum_nonneg (fun y hy => h0 y (List.mem_cons_of_mem _ hy))
      linarith
    · have ha : 0 ≤ a := h0 a (List.mem_cons_self a as)
      have hs := ih (fun y hy => h0 y (List.mem_cons_of_mem _ hy)) hmem
      linarith

/-- Power-mean inequality for lists: the squared mean is at most the mean
of squares. -/
theorem sq_mean_le_mean_sq (l : List ℝ) (hl : l ≠ []) :
    (l.sum / l.length) ^ 2 ≤ (l.map (fun x => x ^ 2)).sum / l.length := by
  have hn : (0 : ℝ) < l.length := by
    have := List.length_pos.mpr hl
    exact_mod_cast this
  have hdev : 0 ≤ (l.map (fun x => (x - l.sum / l.length) ^ 2)).sum := by
    refine List.sum_nonneg ?_
    intro y hy
    obtain ⟨x, _, rfl⟩ := List.mem_map.mp hy
    positivity
  rw [listSum_sq_dev] at hdev
  have hexp : (l.length : ℝ) * ((l.map (fun x => x ^ 2)).sum
        - 2 * (l.sum / l.length) * l.sum + l.length * (l.sum / l.length) ^ 2)
      = (l.map (fun x => x ^ 2)).sum * l.length - l.sum ^ 2 := by
    field_simp
    ring
  have hdev' : 0 ≤ (l.map (fun x => x ^ 2)).sum * l.length - l.sum ^ 2 :=
    hexp ▸ mul_nonneg hn.le hdev
  rw [div_pow, div_le_div_iff₀ (by positivity) hn]
  nlinarith [hdev', hn, mul_nonneg hn.le hdev']

/-- Strict power-mean inequality: strict if some member differs from the
mean. -/
theorem sq_mean_lt_mean_sq (l : List ℝ) {x : ℝ} (hx : x ∈ l)
    (hne : x ≠ l.sum / l.length) :
    (l.sum / l.length) ^ 2 < (l.map (fun x => x ^ 2)).sum / l.length := by
  have hl : l ≠ [] := List.ne_nil_of_mem hx
  have hn : (0 : ℝ) < l.length := by
    have := List.length_pos.mpr hl
    exact_mod_cast this
  have hdev : 0 < (l.map (fun y => (y - l.sum / l.length) ^ 2)).sum := by
    refine listSum_pos_of_mem (l := l.map (fun y => (y - l.sum / l.length) ^ 2)) ?_
      (List.mem_map.mpr ⟨x, hx, rfl⟩) ?_
    · intro y hy
      obtain ⟨z, _, rfl⟩ := List.mem_map.mp hy
      positivity
    · exact pow_two_pos_of_ne_zero (sub_ne_zero.mpr hne)
  rw [listSum_sq_dev] at hdev
  have hexp : (l.length : ℝ) * ((l.map (fun y => y ^ 2)).sum
        - 2 * (l.sum / l.length) * l.sum + l.length * (l.sum / l.length) ^ 2)
      = (l.map (fun y => y ^ 2)).sum * l.length - l.sum ^ 2 := by
    field_simp
    ring
  have hdev' : 0 < (l.map (fun y => y ^ 2)).sum * l.length - l.sum ^ 2 :=
    hexp ▸ mul_pos hn hdev
  rw [div_pow, div_lt_div_iff₀ (by positivity) hn]
  nlinarith [hdev', hn, mul_pos hn hdev']

/-- Counterexample to C8's strictness clause: the error distribution
`(-5, 5)` is not constant, yet `rmse = mae = 5` because the absolute errors
coincide — Jensen is strict only when the absolute errors vary. -/
theorem rmse_eq_mae_cex :
    mae [(0 : ℝ), 0] [5, -5] = 5 ∧ rmse [(0 : ℝ), 0] [5, -5] = 5
    ∧ ((0 : ℝ) - 5 ≠ (0 : ℝ) - (-5)) := by
  have hbp : broadcastPairs [(0 : ℝ), 0] [5, -5]
      = some [((0 : ℝ), (5 : ℝ)), (0, -5)] := rfl
  refine ⟨?_, ?_, by norm_num⟩
  · unfold mae
    rw [hbp]
    show maeVal [((0 : ℝ), (5 : ℝ)), (0, -5)] = 5
    unfold maeVal listMean
    simp only [List.map_cons, List.map_nil, List.sum_cons, List.sum_nil,
      List.length_cons, List.length_nil]
    rw [show |(0 : ℝ) - 5| = 5 by rw [abs_of_nonpos (by norm_num)]; norm_num,
      show |(0 : ℝ) - (-5)| = 5 by rw [abs_of_nonneg (by norm_num)]; norm_num]
    norm_num
  · unfold rmse
    rw [hbp]
    show rmseVal [((0 : ℝ), (5 : ℝ)), (0, -5)] = 5
    have hm : listMean ([((0 : ℝ), (5 : ℝ)), (0, -5)].map (fun q => (q.1 - q.2) ^ 2))
        = 25 := by
      unfold listMean
      simp only [List.map_cons, List.map_nil, List.sum_cons, List.sum_nil,
        List.length_cons, List.length_nil]
      norm_num
    unfold rmseVal
    rw [hm, show (25 : ℝ) = 5 ^ 2 by norm_num, Real.sqrt_sq (by norm_num)]

/-- C8 (amended): on equal-length non-empty arrays, `smape` lies in
`[0, 200]`, `mae` and `rmse` are nonnegative, and `rmse ≥ mae`, strictly
whenever the absolute errors are not all equal (the strictness clause needs
the absolute errors, not merely the errors, to vary). -/
theorem metrics_inequalities (a p : List ℝ) (hlen : a.length = p.length)
    (hne : 0 < a.length) :
    0 ≤ smape a p ∧ smape a p ≤ 200 ∧ 0 ≤ mae a p ∧ 0 ≤ rmse a p
    ∧ mae a p ≤ rmse a p
    ∧ ((∃ q ∈ a.zip p, ∃ q' ∈ a.zip p, |q.1 - q.2| ≠ |q'.1 - q'.2|) →
        mae a p < rmse a p) := by
  have hbp : broadcastPairs a p = some (a.zip p) := by
    unfold broadcastPairs
    rw [if_pos hlen]
  have hmae : mae a p = maeVal (a.zip p) := by unfold mae; rw [hbp]; rfl
  have hrmse : rmse a p = rmseVal (a.zip p) := by unfold rmse; rw [hbp]; rfl
  have hsmape : smape a p = smapeVal (a.zip p) := by unfold smape; rw [hbp]; rfl
  set pairs := a.zip p with hpairs
  have hplen : pairs.length = a.length := by
    rw [hpairs, List.length_zip, hlen, min_self]
  have hppos : 0 < pairs.length := by rw [hplen]; exact hne
  set l := pairs.map (fun q => |q.1 - q.2|) with hl
  have hllen : l.length = pairs.length := List.length_map _ _
  have hlpos : 0 < l.length := by rw [hllen]; exact hppos
  have hlnil : l ≠ [] := by
    intro hnil
    rw [hnil] at hlpos
    simp at hlpos
  have hl0 : ∀ y ∈ l, 0 ≤ y := by
    intro y hy
    obtain ⟨q, _, rfl⟩ := List.mem_map.mp hy
    exact abs_nonneg _
  have hnR : (0 : ℝ) < l.length := by exact_mod_cast hlpos
  have hmv : maeVal pairs = l.sum / l.length := rfl
  have hmae0 : 0 ≤ maeVal pairs := by
    rw [hmv]
    exact div_nonneg (List.sum_nonneg hl0) hnR.le
  have hQ : pairs.map (fun q => (q.1 - q.2) ^ 2) = l.map (fun x => x ^ 2) := by
    rw [hl, List.map_map]
    refine (List.map_congr_left ?_).symm
    intro q _
    simp [Function.comp, sq_abs]
  have hrv : rmseVal pairs = Real.sqrt ((l.map (fun x => x ^ 2)).sum / l.length) := by
    unfold rmseVal listMean
    rw [hQ, List.length_map]
  have hcore : maeVal pairs ≤ rmseVal pairs := by
    rw [hmv, hrv]
    have hy : (0 : ℝ) ≤ (l.map (fun x => x ^ 2)).sum / l.length := by
      refine div_nonneg (List.sum_nonneg ?_) hnR.le
      intro y hy
      obtain ⟨x, _, rfl⟩ := List.mem_map.mp hy
      positivity
    exact (Real.le_sqrt (hmv ▸ hmae0) hy).mpr (sq_mean_le_mean_sq l hlnil)
  have hstrict : (∃ q ∈ pairs, ∃ q' ∈ pairs, |q.1 - q.2| ≠ |q'.1 - q'.2|) →
      maeVal pairs < rmseVal pairs := by
    rintro ⟨q, hq, q', hq', hneq⟩
    have hq1 : |q.1 - q.2| ∈ l := List.mem_map.mpr ⟨q, hq, rfl⟩
    have hq2 : |q'.1 - q'.2| ∈ l := List.mem_map.mpr ⟨q', hq', rfl⟩
    have hx : ∃ x ∈ l, x ≠ l.sum / l.length := by
      by_cases h : |q.1 - q.2| = l.sum / l.length
      · exact ⟨_, hq2, fun hc => hneq (h.trans hc.symm)⟩
      · exact ⟨_, hq1, h⟩
    obtain ⟨x, hxl, hxne⟩ := hx
    rw [hmv, hrv]
    exact (Real.lt_sqrt (hmv ▸ hmae0)).mpr (sq_mean_lt_mean_sq l hxl hxne)
  set l2 := pairs.map (fun q => |q.2 - q.1| / ((|q.1| + |q.2|) / 2 + epsDefault)) with hl2
  have heps : (0 : ℝ) < epsDefault := by unfold epsDefault; norm_num
  have hl2nonneg : ∀ y ∈ l2, 0 ≤ y := by
    intro y hy
    obtain ⟨q, _, rfl⟩ := List.mem_map.mp hy
    have h1 := abs_nonneg q.1
    have h2 := abs_nonneg q.2
    exact div_nonneg (abs_nonneg _) (by linarith)
  have hl2le : ∀ y ∈ l2, y ≤ 2 := by
    intro y hy
    obtain ⟨q, _, rfl⟩ := List.mem_map.mp hy
    have h1 := abs_nonneg q.1
    have h2 := abs_nonneg q.2
    have hden : (0 : ℝ) < (|q.1| + |q.2|) / 2 + epsDefault := by linarith
    rw [div_le_iff₀ hden]
    have habs : |q.2 - q.1| ≤ |q.2| + |q.1| := abs_sub _ _
    linarith
  have hl2pos : (0 : ℝ) < l2.length := by
    rw [List.length_map]
    exact_mod_cast hppos
  have hsv : smapeVal pairs = listMean l2 * 100 := rfl
  have hmean0 : 0 ≤ listMean l2 :=
    div_nonneg (List.sum_nonneg hl2nonneg) hl2pos.le
  have hmean2 : listMean l2 ≤ 2 := by
    unfold listMean
    rw [div_le_iff₀ hl2pos]
    have hsum := List.sum_le_card_nsmul l2 2 hl2le
    rw [nsmul_eq_mul] at hsum
    linarith
  refine ⟨?_, ?_, ?_, ?_, ?_, ?_⟩
  · rw [hsmape, hsv]
    linarith
  · rw [hsmape, hsv]
    linarith
  · rw [hmae]
    exact hmae0
  · rw [hrmse]
    unfold rmseVal
    exact Real.sqrt_nonneg _
  · rw [hmae, hrmse]
    exact hcore
  · intro hch
    rw [hmae, hrmse]
    exact hstrict hch

/-- Witness for C8: the bounds and the strict inequality at the concrete
pair `actual = [1, 2]`, `predicted = [3, 3]` (absolute errors 2 and 1). -/
theorem metrics_inequalities_witness :
    0 ≤ smape [(1 : ℝ), 2] [3, 3] ∧ smape [(1 : ℝ), 2] [3, 3] ≤ 200
    ∧ mae [(1 : ℝ), 2] [3, 3] < rmse [(1 : ℝ), 2] [3, 3] :=
  have h := metrics_inequalities [(1 : ℝ), 2] [3, 3] rfl (by decide)
  ⟨h.1, h.2.1,
   h.2.2.2.2.2 ⟨(1, 3), by simp, (2, 3), by simp,
     by
       rw [show |(1 : ℝ) - 3| = 2 by rw [abs_of_nonpos (by norm_num)]; norm_num,
         show |(2 : ℝ) - 3| = 1 by rw [abs_of_nonpos (by norm_num)]; norm_num]
       norm_num⟩⟩
